import Mathlib

/-!
Verification of the multi-agent orchestration engine of this repository
(Python backend under `Backend/python`).  Python strings are modelled as
lists of characters (`Str`), Python dictionaries as association lists,
awaited provider calls as oracle functions passed in explicitly, and
raised exceptions as explicit error constructors.  Where a claim needs to
know that an external call did or did not happen, the embedded function
additionally returns an instrumentation flag counting/recording those
calls; the flag mirrors the control flow of the source and does not alter
the computed values.
-/

/-- Python strings as lists of characters. -/
abbrev Str := List Char

/-- If `sep` is an initial segment of `s`, return the remainder of `s`
after `sep`; otherwise `none`. -/
def dropSep : Str → Str → Option Str
  | [], s => some s
  | _ :: _, [] => none
  | a :: sepRest, b :: sRest => if a = b then dropSep sepRest sRest else none

/-- Split `s` at the leftmost occurrence of `sep`, returning the parts
before and after it, or `none` when `sep` does not occur in `s`.
This is the semantics of Python `s.split(sep, 1)` when the separator is
present, and of the `in` substring test via `Option.isSome`. -/
def splitFirst (sep : Str) : Str → Option (Str × Str)
  | [] => (dropSep sep []).map (fun r => ([], r))
  | c :: rest =>
    match dropSep sep (c :: rest) with
    | some r => some ([], r)
    | none => (splitFirst sep rest).map (fun p => (c :: p.1, p.2))

/-- Python substring test `sep in s`. -/
def containsSub (sep s : Str) : Bool := (splitFirst sep s).isSome

/-- Python `str.lower()` (ASCII-adequate model). -/
def pyLower (s : Str) : Str := s.map Char.toLower

/-- Characters stripped by Python `str.strip()` with no argument. -/
def isPySpace (c : Char) : Bool :=
  c = ' ' || c = '\t' || c = '\n' || c = '\r' || c = Char.ofNat 11 || c = Char.ofNat 12

/-- Python `str.strip()`: drop leading and trailing whitespace. -/
def pyStrip (s : Str) : Str :=
  ((s.dropWhile isPySpace).reverse.dropWhile isPySpace).reverse

/-- Python `", ".join(xs)` and friends. -/
def joinSep (sep : Str) (xs : List Str) : Str := List.intercalate sep xs

/-- Insert/overwrite a key in a Python-dict model (insertion order kept,
assignment to an existing key overwrites in place). -/
def setAssoc {β : Type} (k : Str) (v : β) : List (Str × β) → List (Str × β)
  | [] => [(k, v)]
  | (k0, v0) :: rest =>
    if k0 = k then (k0, v) :: rest else (k0, v0) :: setAssoc k v rest

/-- Apply `f` to the value stored at `k`, when present. -/
def updateAssoc {β : Type} (k : Str) (f : β → β) : List (Str × β) → List (Str × β)
  | [] => []
  | (k0, v0) :: rest =>
    if k0 = k then (k0, f v0) :: rest else (k0, v0) :: updateAssoc k f rest

/-- The apostrophe character, written by code point. -/
def apos : Char := Char.ofNat 39

/-!
Safety Gate — `services/content_safety_service.py`.
-/

/-- Output filtering actions (`OutputAction` enum: redact, placeholder,
empty).  These are the only members of the enum. -/
inductive OutputAction where
  | redact
  | placeholder
  | empty
deriving DecidableEq, Repr

/-- Configuration of `ContentSafetyService.__init__` as read from
settings: enabled flag, input/output gates, the per-category threshold
dict `{"Hate": _, "SelfHarm": _, "Sexual": _, "Violence": _}` (an
association list, matching the construction order in the source),
blocklist names, output action and placeholder text.  Thresholds are
integers; the source treats `-1` as a sentinel disabling a category. -/
structure SafetyConfig where
  enabled : Bool
  blockUnsafeInput : Bool
  filterUnsafeOutput : Bool
  categoryThresholds : List (Str × Int)
  blocklists : List Str
  outputAction : OutputAction
  placeholderText : Str

/-- Result of content safety analysis (`ContentSafetyResult` dataclass).
The `raw` field (debug-only API payload) is omitted. -/
structure ContentSafetyResult where
  enabled : Bool := true
  highestSeverity : Nat := 0
  highestCategory : Option Str := none
  mediaType : Str := "text".toList
  categorySeverities : List (Str × Nat) := []
  flaggedCategories : List Str := []
  blocklistMatches : List Str := []
  isSafe : Bool := true
  error : Option Str := none
  reason : Str := []

/-- `ContentSafetyResult.not_configured`. -/
def notConfiguredResult : ContentSafetyResult :=
  { enabled := false
    isSafe := true
    reason := "Content safety not configured".toList }

/-- `ContentSafetyResult.failure`: fail-open result for analysis errors. -/
def failureResult (errorMessage : Str) : ContentSafetyResult :=
  { enabled := false
    isSafe := true
    error := some errorMessage
    reason := "Analysis failed: ".toList ++ errorMessage }

/-- Classifier response shape consumed by `_build_result_from_text`:
`categories_analysis` as (normalized category name, severity) pairs and
`blocklists_match` item texts. -/
structure TextAnalysisResponse where
  categoriesAnalysis : List (Str × Nat)
  blocklistsMatch : List Str

/-- Threshold lookup `self.category_thresholds.get(category_name, 5)`. -/
def thresholdFor (thresholds : List (Str × Int)) (name : Str) : Int :=
  (List.lookup name thresholds).getD 5

/-- Accumulator of the category loop in `_build_result_from_text`. -/
structure CatAccum where
  highestSeverity : Nat := 0
  highestCategory : Option Str := none
  categorySeverities : List (Str × Nat) := []
  flaggedCategories : List Str := []

/-- The category loop of `_build_result_from_text`: record each severity,
track the strictly-highest severity, and flag a category whose threshold
is not `-1` and whose severity meets or exceeds it (threshold defaulting
to 5 for a category name absent from the dict). -/
def processCategories (thresholds : List (Str × Int)) :
    List (Str × Nat) → CatAccum → CatAccum
  | [], acc => acc
  | (name, severity) :: rest, acc =>
    let acc1 : CatAccum :=
      { acc with categorySeverities := setAssoc name severity acc.categorySeverities }
    let acc2 : CatAccum :=
      if severity > acc1.highestSeverity then
        { acc1 with highestSeverity := severity, highestCategory := some name }
      else acc1
    let thr : Int := thresholdFor thresholds name
    let acc3 : CatAccum :=
      if thr ≠ -1 ∧ (severity : Int) ≥ thr then
        { acc2 with flaggedCategories := acc2.flaggedCategories ++ [name] }
      else acc2
    processCategories thresholds rest acc3

/-- Reason string built by `_build_result_from_text`. -/
def buildReason (flagged blocklistMatches : List Str) : Str :=
  if flagged = [] ∧ blocklistMatches = [] then "Content is safe".toList
  else
    let parts : List Str :=
      (if flagged ≠ [] then ["Categories: ".toList ++ joinSep ", ".toList flagged] else []) ++
      (if blocklistMatches ≠ [] then
        ["Blocklist matches: ".toList ++ (toString blocklistMatches.length).toList] else [])
    "Content flagged - ".toList ++ joinSep "; ".toList parts

/-- `ContentSafetyService._build_result_from_text`: category processing,
blocklist matches, and `is_safe = (no flagged category and no blocklist
match)`. -/
def buildResultFromText (cfg : SafetyConfig) (response : TextAnalysisResponse) :
    ContentSafetyResult :=
  let acc := processCategories cfg.categoryThresholds response.categoriesAnalysis {}
  let blocklistMatches := response.blocklistsMatch
  let isSafe := acc.flaggedCategories = [] ∧ blocklistMatches = []
  { enabled := true
    highestSeverity := acc.highestSeverity
    highestCategory := acc.highestCategory
    mediaType := "text".toList
    categorySeverities := acc.categorySeverities
    flaggedCategories := acc.flaggedCategories
    blocklistMatches := blocklistMatches
    isSafe := isSafe
    reason := buildReason acc.flaggedCategories blocklistMatches }

/-- `ContentSafetyService.is_safe`: fail-open on a disabled/errored
result, else the stored verdict. -/
def serviceIsSafe (result : ContentSafetyResult) : Bool :=
  if !result.enabled then true else result.isSafe

/-- Outcome of one call to the Azure classifier endpoint. -/
inductive ClassifierOutcome where
  | ok (response : TextAnalysisResponse)
  | httpError (message : Str)
  | exn (message : Str)

/-- `ContentSafetyService.analyze_text_async`.  The client is `none` when
construction failed; a configured client is an oracle from the analyzed
text to the call outcome.  The second component records whether the
classifier backend was actually called. -/
def analyzeTextAsync (cfg : SafetyConfig) (client : Option (Str → ClassifierOutcome))
    (text : Str) : ContentSafetyResult × Bool :=
  if !cfg.enabled || client.isNone then (notConfiguredResult, false)
  else if text = [] || pyStrip text = [] then (notConfiguredResult, false)
  else
    match client with
    | none => (notConfiguredResult, false)
    | some classify =>
      match classify text with
      | .ok response => (buildResultFromText cfg response, true)
      | .httpError e => (failureResult e, true)
      | .exn e => (failureResult e, true)

/-- Error message produced by `check_user_input_async` for a blocked
input: it lists the flagged categories. -/
def inputBlockedMessage (flagged : List Str) : Str :=
  "Input blocked due to unsafe content: ".toList ++ joinSep ", ".toList flagged

/-- `ContentSafetyService.check_user_input_async`: returns
`(is_allowed, error message)` plus the classifier-was-called flag. -/
def checkUserInputAsync (cfg : SafetyConfig) (client : Option (Str → ClassifierOutcome))
    (text : Str) : (Bool × Option Str) × Bool :=
  if !cfg.enabled || !cfg.blockUnsafeInput then ((true, none), false)
  else
    let rc := analyzeTextAsync cfg client text
    if !(serviceIsSafe rc.1) then
      ((false, some (inputBlockedMessage rc.1.flaggedCategories)), rc.2)
    else ((true, none), rc.2)

/-- `ContentSafetyService._redact_unsafe`: replaces the entire content
with the placeholder text. -/
def redactUnsafe (cfg : SafetyConfig) (_original : Str)
    (_analysis : ContentSafetyResult) : Str :=
  cfg.placeholderText

/-- `ContentSafetyService.filter_output`: pass through when disabled, when
output filtering is off, or when the analysis is safe; otherwise apply the
configured output action. -/
def filterOutput (cfg : SafetyConfig) (original : Str)
    (analysis : ContentSafetyResult) : Str :=
  if !cfg.enabled || !cfg.filterUnsafeOutput then original
  else if serviceIsSafe analysis then original
  else
    match cfg.outputAction with
    | .placeholder => cfg.placeholderText
    | .empty => []
    | .redact => redactUnsafe cfg original analysis

/-!
Orchestration engine — `services/workflow_orchestration_service.py`.
-/

/-- Messages of `models/chat_models.py` (`GroupChatMessage`): content,
speaker, and the caller-supplied turn number.  The timestamp and the
random `message_id` are nondeterministic I/O and are omitted; the
optional metadata dict is omitted as no settled claim depends on it. -/
structure GroupChatMessage where
  content : Str
  agent : Str
  turn : Nat
deriving DecidableEq, Repr

/-- Requests of `models/chat_models.py` (`GroupChatRequest`). -/
structure OrchRequest where
  message : Str
  agents : List Str
  sessionId : Option Str
  maxTurns : Nat
  format : Str

/-- Responses of `models/chat_models.py` (`GroupChatResponse`).  The
declared fields only: the model declares no `summary` field, and the
wall-clock `total_processing_time` is omitted.  The metadata dict is
modelled as string pairs. -/
structure GroupChatResponse where
  messages : List GroupChatMessage
  sessionId : Str
  totalTurns : Nat
  participatingAgents : List Str
  terminatedAgents : List Str
  metadata : List (Str × Str)

/-- Header the synthesizer prepends to each successful agent response:
the f-string template from `_synthesize_responses` applied to the pair
(agent name, response text). -/
def expertResponsesOf (results : List (Str × Str)) : List Str :=
  results.map (fun p => "**".toList ++ p.1 ++ "**: ".toList ++ p.2)

/-- Synthesis prompt composed by `_synthesize_responses` (the literal
text of the source, with the apostrophe spelled by code point). -/
def synthesisPrompt (originalQuery : Str) (expertResponses : List Str) : Str :=
  ("You are a helpful assistant that creates coherent, unified answers " ++
   "from multiple expert responses.\n\nOriginal Query: ").toList
  ++ originalQuery
  ++ "\n\nExpert Responses:\n".toList
  ++ joinSep "\n".toList expertResponses
  ++ ("\n\nYour Task:\n- Combine these expert responses into ONE coherent, " ++
      "helpful answer\n- Remove any redundancy or irrelevant information\n" ++
      "- Focus on directly answering the user").toList
  ++ [apos]
  ++ ("s query\n- Keep the response concise and well-organized\n" ++
      "- If experts contradict, acknowledge both perspectives\n\n" ++
      "Synthesized Response:").toList

/-- `WorkflowOrchestrationService._synthesize_responses`.  `results` are
the (agent name, response text) pairs of the collected results (at the
call site every mock result carries the `agent_run_response` attribute).
`getGenericAgent` models `agent_service.get_agent("generic_agent")`:
`none` when the agent is unavailable, `some run` otherwise, where `run`
returns `none` when the synthesis call raises.  Any exception in the body
is caught by the source and answered with the concatenation fallback.
The boolean records whether the synthesis agent was consulted at all. -/
def synthesizeResponses (getGenericAgent : Option (Str → Option Str))
    (results : List (Str × Str)) (originalQuery : Str) : Str × Bool :=
  let ers := expertResponsesOf results
  if ers = [] then ("No agent responses to synthesize.".toList, false)
  else if ers.length = 1 then
    match splitFirst ": ".toList (ers.headD []) with
    | some p => (p.2, false)
    | none => (joinSep "\n\n".toList ers, false)
  else
    match getGenericAgent with
    | none => (joinSep "\n\n".toList ers, true)
    | some run =>
      match run (synthesisPrompt originalQuery ers) with
      | some text => (text, true)
      | none => (joinSep "\n\n".toList ers, true)

/-- Outcome of one full pass over `workflow.run_stream` inside
`execute_workflow`: either the collected `WorkflowOutputEvent` pairs
(source executor id, extracted text), a `ServiceResponseException`
carrying its message, or any other exception. -/
inductive WorkflowAttempt where
  | ok (responses : List (Str × Str))
  | serviceError (message : Str)
  | otherError (message : Str)

/-- Result of the retry loop of `execute_workflow`: the exception message
re-raised (if any), the collected responses, how many attempts ran, and
the sleeps performed between attempts (in seconds). -/
structure RetryRun where
  raised : Option Str
  responses : List (Str × Str)
  attemptsUsed : Nat
  sleeps : List Nat
deriving DecidableEq, Repr

/-- Core of the retry loop (`for attempt in range(max_retries)` with
`retry_delay = 10`): a rate-limit `ServiceResponseException` is retried
after sleeping `retry_delay * (attempt + 1)` seconds while retries
remain (`attempt < max_retries - 1`); every other exception is re-raised
at once. -/
def retryGo (behavior : Nat → WorkflowAttempt) :
    Nat → Nat → List Nat → RetryRun
  | retriesLeft, attempt, sleepsAcc =>
    match behavior attempt with
    | .ok rs => ⟨none, rs, attempt + 1, sleepsAcc.reverse⟩
    | .serviceError m =>
      match retriesLeft with
      | r + 1 =>
        if containsSub "rate limit".toList (pyLower m) then
          retryGo behavior r (attempt + 1) (10 * (attempt + 1) :: sleepsAcc)
        else ⟨some m, [], attempt + 1, sleepsAcc.reverse⟩
      | 0 => ⟨some m, [], attempt + 1, sleepsAcc.reverse⟩
    | .otherError m => ⟨some m, [], attempt + 1, sleepsAcc.reverse⟩

/-- The retry loop with the source constants `max_retries = 3` (so two
retries remain after the first attempt). -/
def runWorkflowWithRetry (behavior : Nat → WorkflowAttempt) : RetryRun :=
  retryGo behavior 2 0 []

/-- Metadata dict of the policy-violation response built in
`execute_workflow` when the input check fails. -/
def blockedMetadata : List (Str × Str) :=
  [("blocked".toList, "True".toList),
   ("reason".toList, "content_safety_violation".toList)]

/-- Input-gate prefix of `execute_workflow` (STEP 1): the user message is
checked before any session write, workflow construction, or agent
resolution; on a disallowed input the blocked response is returned
immediately.  `rest` is the remainder of the run (everything after the
gate), reporting its response together with the number of agent
dispatches it performed; the gate path performs zero dispatches and never
invokes `rest`.  The source also passes the check error message as a
`summary=` keyword, which the declared response model does not carry. -/
def executeWorkflowGate (cfg : SafetyConfig)
    (client : Option (Str → ClassifierOutcome)) (req : OrchRequest)
    (freshSessionId : Str) (rest : Unit → GroupChatResponse × Nat) :
    GroupChatResponse × Nat :=
  let check := checkUserInputAsync cfg client req.message
  if check.1.1 = false then
    ({ messages := []
       sessionId := req.sessionId.getD freshSessionId
       totalTurns := 0
       participatingAgents := []
       terminatedAgents := []
       metadata := blockedMetadata }, 0)
  else rest ()

/-- Agent messages built by `execute_workflow` after the run: one message
per collected response, numbered from turn 1 upward. -/
def agentTurnMessages : List (Str × Str) → Nat → List GroupChatMessage
  | [], _ => []
  | (agent, content) :: rest, turn =>
    ⟨content, agent, turn⟩ :: agentTurnMessages rest (turn + 1)

/-- Message list assembled by `execute_workflow` for one run: the user
message at turn 0, the collected agent responses at turns 1.., and — when
more than one agent responded — the synthesizer message at the next
turn. -/
def runMessages (userContent : Str) (agentResponses : List (Str × Str))
    (synthesizedContent : Str) : List GroupChatMessage :=
  let userMsg : GroupChatMessage := ⟨userContent, "user".toList, 0⟩
  let ams := agentTurnMessages agentResponses 1
  if agentResponses.length > 1 then
    userMsg :: ams ++
      [⟨synthesizedContent, "workflow_synthesizer".toList, agentResponses.length + 1⟩]
  else userMsg :: ams

/-!
Session Store — `src/services/session_manager.py`.  The in-memory dicts
`_sessions` and `_session_metadata` and the backing file store (one
messages file and one metadata file per session id) are modelled as
association lists; wall-clock timestamps are supplied as a `now`
parameter. -/

/-- Per-session metadata dict. -/
structure SessionMeta where
  createdAt : Nat
  lastAccessed : Nat
  messageCount : Nat
deriving DecidableEq, Repr

/-- State of a `SessionManager` instance together with its backing file
storage. -/
structure SessionState where
  storageTypeFile : Bool
  memory : List (Str × List GroupChatMessage)
  metadata : List (Str × SessionMeta)
  fileStore : List (Str × List GroupChatMessage)
  fileMeta : List (Str × SessionMeta)
deriving Repr

/-- `SessionManager._update_session_access`: refresh `last_accessed` when
the session has metadata in memory. -/
def updateSessionAccess (st : SessionState) (sid : Str) (now : Nat) : SessionState :=
  if (List.lookup sid st.metadata).isSome then
    { st with metadata :=
        updateAssoc sid (fun m => { m with lastAccessed := now }) st.metadata }
  else st

/-- `SessionManager._save_session_to_file`: write the in-memory messages
and metadata of `sid` through to the file store. -/
def saveSessionToFile (st : SessionState) (sid : Str) : SessionState :=
  { st with
    fileStore := setAssoc sid ((List.lookup sid st.memory).getD []) st.fileStore
    fileMeta := setAssoc sid
      ((List.lookup sid st.metadata).getD ⟨0, 0, 0⟩) st.fileMeta }

/-- `SessionManager._load_session_from_file`: `none` when the session
file is absent; otherwise the stored messages, with the metadata file (if
present) loaded into the in-memory metadata dict. -/
def loadSessionFromFile (st : SessionState) (sid : Str) :
    Option (List GroupChatMessage × SessionState) :=
  match List.lookup sid st.fileStore with
  | none => none
  | some history =>
    let st1 :=
      match List.lookup sid st.fileMeta with
      | some m => { st with metadata := setAssoc sid m st.metadata }
      | none => st
    some (history, st1)

/-- `SessionManager.get_session_history`: memory first, then (for file
storage) the file store, else the empty list with the state untouched. -/
def getSessionHistory (st : SessionState) (sid : Str) (now : Nat) :
    List GroupChatMessage × SessionState :=
  match List.lookup sid st.memory with
  | some history => (history, updateSessionAccess st sid now)
  | none =>
    if st.storageTypeFile then
      match loadSessionFromFile st sid with
      | some hs =>
        let st2 := { hs.2 with memory := setAssoc sid hs.1 hs.2.memory }
        (hs.1, updateSessionAccess st2 sid now)
      | none => ([], st)
    else ([], st)

/-- `SessionManager.add_message_to_session`: create the in-memory entry
when absent, append the caller-built message verbatim, refresh metadata,
and (for file storage) persist. -/
def addMessageToSession (st : SessionState) (sid : Str)
    (message : GroupChatMessage) (now : Nat) : SessionState :=
  let st1 :=
    if (List.lookup sid st.memory).isNone then
      { st with
        memory := setAssoc sid [] st.memory
        metadata := setAssoc sid ⟨now, now, 0⟩ st.metadata }
    else st
  let newHistory := ((List.lookup sid st1.memory).getD []) ++ [message]
  let st2 := { st1 with memory := setAssoc sid newHistory st1.memory }
  let st3 := updateSessionAccess st2 sid now
  let newMeta := updateAssoc sid (fun m => { m with messageCount := newHistory.length }) st3.metadata
  let st4 := { st3 with metadata := newMeta }
  if st4.storageTypeFile then saveSessionToFile st4 sid else st4

/-!
Dispatcher — `services/group_chat_service.py` (`start_group_chat`).
Agent invocations are modelled by an oracle from (turn number, agent
name) to an outcome; the oracle abstracts `agent_service.get_agent`
followed by `agent.run(request.message)` under `asyncio.wait_for`. -/

/-- Outcome of one agent invocation inside the group-chat turn loop. -/
inductive AgentOutcome where
  | notFound
  | success (content : Str)
  | timeout
  | failure (message : Str)
deriving DecidableEq

/-- Termination indicators scanned by `_is_agent_terminated` (apostrophe
spelled by code point). -/
def terminationIndicators : List Str :=
  ["TERMINATE".toList,
   "CONVERSATION_COMPLETE".toList,
   "END_CONVERSATION".toList,
   "I".toList ++ [apos] ++ "m done".toList,
   "conversation is complete".toList,
   "no further assistance needed".toList]

/-- `GroupChatService._is_agent_terminated`: case-insensitive substring
search for any termination indicator. -/
def isAgentTerminated (content : Str) : Bool :=
  terminationIndicators.any (fun ind => containsSub (pyLower ind) (pyLower content))

/-- Content of the synthetic timeout message. -/
def timeoutContent (name : Str) : Str :=
  "Agent ".toList ++ name ++ " did not respond within the timeout period.".toList

/-- Content of the synthetic error message. -/
def errorContent (name message : Str) : Str :=
  "Error occurred with agent ".toList ++ name ++ ": ".toList ++ message

/-- One turn of the group-chat loop over the requested agents: skip
terminated agents, skip unresolvable agents with no entry, record a
message per success/timeout/error, and extend the terminated set on
timeout, error, or a termination indicator in a successful response. -/
def processTurnAgents (behavior : Nat → Str → AgentOutcome) (turn : Nat) :
    List Str → List Str → List GroupChatMessage × List Str
  | [], terminated => ([], terminated)
  | name :: rest, terminated =>
    if name ∈ terminated then processTurnAgents behavior turn rest terminated
    else
      match behavior turn name with
      | .notFound => processTurnAgents behavior turn rest terminated
      | .success content =>
        let terminated1 :=
          if isAgentTerminated content then terminated ++ [name] else terminated
        let next := processTurnAgents behavior turn rest terminated1
        (⟨content, name, turn⟩ :: next.1, next.2)
      | .timeout =>
        let next := processTurnAgents behavior turn rest (terminated ++ [name])
        (⟨timeoutContent name, name, turn⟩ :: next.1, next.2)
      | .failure message =>
        let next := processTurnAgents behavior turn rest (terminated ++ [name])
        (⟨errorContent name message, name, turn⟩ :: next.1, next.2)

/-- The turn loop of `start_group_chat` (`for turn in range(1,
max_turns + 1)` with the early break once every requested agent is
terminated): returns the agent messages, the terminated set, and the
final value of `current_turn`. -/
def groupChatLoop (behavior : Nat → Str → AgentOutcome) (agents : List Str) :
    Nat → Nat → List Str → List GroupChatMessage × List Str × Nat
  | 0, currentTurn, terminated => ([], terminated, currentTurn)
  | turnsRemaining + 1, currentTurn, terminated =>
    let step := processTurnAgents behavior currentTurn agents terminated
    if step.2.length ≥ agents.length then (step.1, step.2, currentTurn + 1)
    else
      let further := groupChatLoop behavior agents turnsRemaining (currentTurn + 1) step.2
      (step.1 ++ further.1, further.2.1, further.2.2)

/-- `GroupChatService.start_group_chat`: the user message at turn 0
followed by the loop output.  `participating_agents` is set to
`request.agents` verbatim.  Appends to the session store and wall-clock
metadata are performed alongside and are not part of the returned
value modelled here. -/
def startGroupChat (behavior : Nat → Str → AgentOutcome) (request : OrchRequest)
    (sessionId : Str) : GroupChatResponse :=
  let userMsg : GroupChatMessage := ⟨request.message, "user".toList, 0⟩
  let run := groupChatLoop behavior request.agents request.maxTurns 1 []
  { messages := userMsg :: run.1
    sessionId := sessionId
    totalTurns := run.2.2 - 1
    participatingAgents := request.agents
    terminatedAgents := run.2.1
    metadata := [] }

/-!
Concrete fixtures used by witnesses and counterexamples, and derived
definitions used in theorem statements.
-/

/-- The default per-category thresholds of `core/config.py` (all 4). -/
def defaultThresholds : List (Str × Int) :=
  [("Hate".toList, 4), ("SelfHarm".toList, 4),
   ("Sexual".toList, 4), ("Violence".toList, 4)]

/-- The default placeholder text of `core/config.py`. -/
def defaultPlaceholder : Str := "[Content removed due to safety policy]".toList

/-- Configuration with the Hate category disabled via the `-1` sentinel
and everything else at the defaults. -/
def cfgHateDisabled : SafetyConfig :=
  { enabled := true
    blockUnsafeInput := true
    filterUnsafeOutput := true
    categoryThresholds :=
      [("Hate".toList, -1), ("SelfHarm".toList, 4),
       ("Sexual".toList, 4), ("Violence".toList, 4)]
    blocklists := []
    outputAction := OutputAction.redact
    placeholderText := defaultPlaceholder }

/-- Classifier response with all four severities at 0 and no blocklist
match. -/
def respAllZero : TextAnalysisResponse :=
  { categoriesAnalysis :=
      [("Hate".toList, 0), ("SelfHarm".toList, 0),
       ("Sexual".toList, 0), ("Violence".toList, 0)]
    blocklistsMatch := [] }

/-- The all-default configuration (`redact` output action). -/
def cfgDefault : SafetyConfig :=
  { enabled := true
    blockUnsafeInput := true
    filterUnsafeOutput := true
    categoryThresholds := defaultThresholds
    blocklists := []
    outputAction := OutputAction.redact
    placeholderText := defaultPlaceholder }

/-- An unsafe analysis result (enabled, flagged). -/
def unsafeAnalysis : ContentSafetyResult :=
  { enabled := true
    highestSeverity := 6
    highestCategory := some "Violence".toList
    categorySeverities := [("Violence".toList, 6)]
    flaggedCategories := ["Violence".toList]
    blocklistMatches := []
    isSafe := false
    reason := "Content flagged - Categories: Violence".toList }

/-- Classifier oracle reporting Violence severity 6 on every text. -/
def clientViolence : Option (Str → ClassifierOutcome) :=
  some (fun _ =>
    ClassifierOutcome.ok
      { categoriesAnalysis :=
          [("Hate".toList, 0), ("SelfHarm".toList, 0),
           ("Sexual".toList, 0), ("Violence".toList, 6)]
        blocklistsMatch := [] })

/-- Agent-invocation oracle: `alpha` answers `X`, every other agent times
out. -/
def behaviorAlphaBeta : Nat → Str → AgentOutcome := fun _ name =>
  if name = "alpha".toList then AgentOutcome.success "X".toList
  else AgentOutcome.timeout

/-- Request selecting `alpha` and `beta` for a single turn. -/
def reqAlphaBeta : OrchRequest :=
  { message := "hi".toList
    agents := ["alpha".toList, "beta".toList]
    sessionId := none
    maxTurns := 1
    format := "user_friendly".toList }

/-- Workflow behavior whose first attempt raises a non-rate-limit
`ServiceResponseException`. -/
def behaviorQuota : Nat → WorkflowAttempt := fun n =>
  if n = 0 then WorkflowAttempt.serviceError "server busy".toList
  else WorkflowAttempt.ok []

/-- Workflow behavior that is rate-limited on the first attempt and
succeeds on the second. -/
def behaviorRateLimited : Nat → WorkflowAttempt := fun n =>
  if n = 0 then WorkflowAttempt.serviceError "429 Rate limit exceeded".toList
  else WorkflowAttempt.ok [("generic_agent".toList, "ok".toList)]

/-- The message entry `start_group_chat` records for one agent in one
turn, given the invocation outcome (the `notFound` case produces no entry
in the source and is excluded by hypothesis where this is used). -/
def entryForTurn (behavior : Nat → Str → AgentOutcome) (turn : Nat)
    (name : Str) : GroupChatMessage :=
  match behavior turn name with
  | .success content => ⟨content, name, turn⟩
  | .timeout => ⟨timeoutContent name, name, turn⟩
  | .failure message => ⟨errorContent name message, name, turn⟩
  | .notFound => ⟨[], name, turn⟩

/-- Predicate: the invocation outcome counts as failed (timeout or
error). -/
def outcomeFailed : AgentOutcome → Prop
  | .timeout => True
  | .failure _ => True
  | _ => False

/-- The per-category flagging test of `_build_result_from_text`, as a
Boolean on one (category, severity) pair. -/
def flagTest (thresholds : List (Str × Int)) (p : Str × Nat) : Bool :=
  decide (thresholdFor thresholds p.1 ≠ -1 ∧ (p.2 : Int) ≥ thresholdFor thresholds p.1)

/-!
Theorems.
-/

/-- C10: reading the history of a session id absent from memory and from
the backing file store returns the empty list and leaves the whole
session state (memory, metadata, files) unchanged — nothing is created
and nothing is raised. -/
theorem sessionHistory_missing_returns_empty (st : SessionState) (sid : Str)
    (now : Nat) (hmem : List.lookup sid st.memory = none)
    (hfile : List.lookup sid st.fileStore = none) :
    getSessionHistory st sid now = ([], st) := by
  simp [getSessionHistory, loadSessionFromFile, hmem, hfile]

/-- Witness for C10 at a concrete empty store. -/
theorem sessionHistory_missing_returns_empty_witness :
    List.lookup "s".toList (SessionState.memory ⟨true, [], [], [], []⟩) = none ∧
    getSessionHistory ⟨true, [], [], [], []⟩ "s".toList 0 =
      ([], ⟨true, [], [], [], []⟩) :=
  ⟨rfl, sessionHistory_missing_returns_empty ⟨true, [], [], [], []⟩ "s".toList 0 rfl rfl⟩

/-- C9: on an empty or whitespace-only input, `analyze_text_async`
returns the not-configured verdict without calling the classifier (for
every configuration, enabled ones included), that verdict is allowed by
`is_safe`, and `check_user_input_async` therefore allows the message. -/
theorem blankInput_skips_classifier (cfg : SafetyConfig)
    (client : Option (Str → ClassifierOutcome)) (text : Str)
    (h : text.all isPySpace = true) :
    analyzeTextAsync cfg client text = (notConfiguredResult, false) ∧
    serviceIsSafe (analyzeTextAsync cfg client text).1 = true ∧
    (checkUserInputAsync cfg client text).1 = (true, none) := by
  have hstrip : pyStrip text = [] := by
    have hd : text.dropWhile isPySpace = [] :=
      List.dropWhile_eq_nil_iff.mpr (fun x hx => List.all_eq_true.mp h x hx)
    simp [pyStrip, hd]
  have hmain : analyzeTextAsync cfg client text = (notConfiguredResult, false) := by
    unfold analyzeTextAsync
    by_cases hc : (!cfg.enabled || client.isNone) = true
    · simp [hc]
    · simp [hc, hstrip]
  refine ⟨hmain, by rw [hmain]; rfl, ?_⟩
  unfold checkUserInputAsync
  by_cases hb : (!cfg.enabled || !cfg.blockUnsafeInput) = true
  · simp [hb]
  · simp [hb, hmain, serviceIsSafe, notConfiguredResult]

/-- Witness for C9 on the single-space input. -/
theorem blankInput_skips_classifier_witness :
    (" ".toList.all isPySpace = true) ∧
    analyzeTextAsync cfgDefault clientViolence " ".toList =
      (notConfiguredResult, false) :=
  ⟨by decide,
   (blankInput_skips_classifier cfgDefault clientViolence " ".toList (by decide)).1⟩

/-- C8 counterexample: with the `redact` output action configured (the
default), an unsafe verdict, and filtering enabled, `filter_output`
returns the placeholder text, not the empty string the claim assigns to
the redact action. -/
theorem filterOutput_redact_not_empty :
    filterOutput cfgDefault "hello".toList unsafeAnalysis = defaultPlaceholder ∧
    filterOutput cfgDefault "hello".toList unsafeAnalysis ≠ [] := by
  constructor
  · rfl
  · decide

/-- C8 amended: when disabled or with output filtering off the text
passes through unchanged, as it does on a safe verdict; on an unsafe
verdict the `placeholder` action yields the placeholder text, the
`empty` action yields the empty string, and the `redact` action yields
the placeholder text (whole-content replacement), the enum having
exactly these three actions (no pass-through member); the output is
always one of these strings, never dropped. -/
theorem filterOutput_amended :
    (∀ cfg original analysis, (cfg.enabled = false ∨ cfg.filterUnsafeOutput = false) →
       filterOutput cfg original analysis = original) ∧
    (∀ cfg original analysis, serviceIsSafe analysis = true →
       filterOutput cfg original analysis = original) ∧
    (∀ cfg original analysis, cfg.enabled = true → cfg.filterUnsafeOutput = true →
       serviceIsSafe analysis = false → cfg.outputAction = OutputAction.placeholder →
       filterOutput cfg original analysis = cfg.placeholderText) ∧
    (∀ cfg original analysis, cfg.enabled = true → cfg.filterUnsafeOutput = true →
       serviceIsSafe analysis = false → cfg.outputAction = OutputAction.empty →
       filterOutput cfg original analysis = []) ∧
    (∀ cfg original analysis, cfg.enabled = true → cfg.filterUnsafeOutput = true →
       serviceIsSafe analysis = false → cfg.outputAction = OutputAction.redact →
       filterOutput cfg original analysis = cfg.placeholderText) ∧
    (∀ a : OutputAction, a = OutputAction.redact ∨ a = OutputAction.placeholder ∨
       a = OutputAction.empty) := by
  refine ⟨?_, ?_, ?_, ?_, ?_, ?_⟩
  · intro cfg original analysis h
    rcases h with h | h <;> simp [filterOutput, h]
  · intro cfg original analysis h
    by_cases hc : (!cfg.enabled || !cfg.filterUnsafeOutput) = true
    · simp [filterOutput, hc]
    · simp [filterOutput, hc, h]
  · intro cfg original analysis he hf hu ha
    simp [filterOutput, he, hf, hu, ha]
  · intro cfg original analysis he hf hu ha
    simp [filterOutput, he, hf, hu, ha]
  · intro cfg original analysis he hf hu ha
    simp [filterOutput, he, hf, hu, ha, redactUnsafe]
  · intro a
    cases a
    · exact Or.inl rfl
    · exact Or.inr (Or.inl rfl)
    · exact Or.inr (Or.inr rfl)

/-- Witness for C8 amended at the default configuration and an unsafe
verdict. -/
theorem filterOutput_amended_witness :
    serviceIsSafe unsafeAnalysis = false ∧
    filterOutput cfgDefault "hi".toList unsafeAnalysis = cfgDefault.placeholderText :=
  ⟨by decide,
   filterOutput_amended.2.2.2.2.1 cfgDefault "hi".toList unsafeAnalysis rfl rfl
     (by decide) rfl⟩

/-- The flagged-category list produced by the category loop: the input
categories passing the per-category flag test, in order. -/
theorem processCategories_flagged (th : List (Str × Int)) (l : List (Str × Nat))
    (acc : CatAccum) :
    (processCategories th l acc).flaggedCategories =
      acc.flaggedCategories ++ (l.filter (flagTest th)).map Prod.fst := by
  induction l generalizing acc with
  | nil => simp [processCategories]
  | cons p rest ih =>
    obtain ⟨name, severity⟩ := p
    simp only [processCategories]
    rw [ih]
    by_cases hflag : thresholdFor th name ≠ -1 ∧ (severity : Int) ≥ thresholdFor th name
    · have ht : flagTest th (name, severity) = true := by simp [flagTest, hflag]
      simp [List.filter_cons, ht, hflag, apply_ite CatAccum.flaggedCategories]
    · have ht : flagTest th (name, severity) = false := by
        simp only [flagTest, decide_eq_false_iff_not]
        exact hflag
      simp [List.filter_cons, ht, hflag, apply_ite CatAccum.flaggedCategories]

/-- The text verdict is disallowed exactly when some reported category
passes the flag test or a blocklist match is present. -/
theorem buildResult_unsafe_iff (cfg : SafetyConfig) (resp : TextAnalysisResponse) :
    serviceIsSafe (buildResultFromText cfg resp) = false ↔
      ((∃ p ∈ resp.categoriesAnalysis, flagTest cfg.categoryThresholds p = true) ∨
       resp.blocklistsMatch ≠ []) := by
  have hflag := processCategories_flagged cfg.categoryThresholds
    resp.categoriesAnalysis {}
  simp only [buildResultFromText, serviceIsSafe]
  simp only [Bool.not_true, Bool.false_eq_true, if_false]
  rw [hflag]
  simp only [CatAccum.flaggedCategories, List.nil_append]
  constructor
  · intro h
    have h2 := of_decide_eq_false h
    rcases not_and_or.mp h2 with h3 | h3
    · left
      have h4 : resp.categoriesAnalysis.filter (flagTest cfg.categoryThresholds) ≠ [] := by
        intro hnil
        exact h3 (by rw [hnil]; rfl)
      obtain ⟨p, hp⟩ := List.exists_mem_of_ne_nil _ h4
      exact ⟨p, (List.mem_filter.mp hp).1, (List.mem_filter.mp hp).2⟩
    · exact Or.inr h3
  · intro h
    apply decide_eq_false
    intro hcon
    rcases h with ⟨p, hmem, htest⟩ | hbl
    · have : p ∈ resp.categoriesAnalysis.filter (flagTest cfg.categoryThresholds) :=
        List.mem_filter.mpr ⟨hmem, htest⟩
      have hfil : resp.categoriesAnalysis.filter (flagTest cfg.categoryThresholds) = [] :=
        List.map_eq_nil_iff.mp hcon.1
      rw [hfil] at this
      exact absurd this (List.not_mem_nil p)
    · exact hbl hcon.2

/-- C1 counterexample: with the Hate threshold configured to the `-1`
sentinel and an all-zero verdict, the claimed biconditional fails — the
severity 0 meets/exceeds the configured threshold `-1`, yet the verdict
is allowed because the source skips categories whose threshold is
`-1`. -/
theorem isAllowed_iff_counterexample :
    ¬ (serviceIsSafe (buildResultFromText cfgHateDisabled respAllZero) = false ↔
       ((∃ p ∈ respAllZero.categoriesAnalysis,
           (p.2 : Int) ≥ thresholdFor cfgHateDisabled.categoryThresholds p.1) ∨
        respAllZero.blocklistsMatch ≠ [])) := by
  intro h
  have hsafe : serviceIsSafe (buildResultFromText cfgHateDisabled respAllZero) = true := by
    decide
  have hrhs : (∃ p ∈ respAllZero.categoriesAnalysis,
      (p.2 : Int) ≥ thresholdFor cfgHateDisabled.categoryThresholds p.1) ∨
      respAllZero.blocklistsMatch ≠ [] := by
    left
    refine ⟨("Hate".toList, 0), by decide, by decide⟩
  rw [h.mpr hrhs] at hsafe
  exact Bool.false_ne_true hsafe

/-- C1 amended: the verdict is disallowed iff some reported category has
a threshold other than the `-1` disable sentinel that its severity meets
or exceeds, or a blocklist match exists; a disabled-service or
failed-analysis result is always allowed (fail-open); and raising one
category's severity from below to at-or-above its (enabled) threshold,
all else equal, flips an allowed verdict to unsafe. -/
theorem isAllowed_amended :
    (∀ cfg resp, serviceIsSafe (buildResultFromText cfg resp) = false ↔
       ((∃ p ∈ resp.categoriesAnalysis,
           thresholdFor cfg.categoryThresholds p.1 ≠ -1 ∧
           (p.2 : Int) ≥ thresholdFor cfg.categoryThresholds p.1) ∨
        resp.blocklistsMatch ≠ [])) ∧
    serviceIsSafe notConfiguredResult = true ∧
    (∀ e, serviceIsSafe (failureResult e) = true) ∧
    (∀ (cfg : SafetyConfig) (pre post : List (Str × Nat)) (c : Str) (s s2 : Nat)
       (bl : List Str),
       serviceIsSafe (buildResultFromText cfg ⟨pre ++ (c, s) :: post, bl⟩) = true →
       (s : Int) < thresholdFor cfg.categoryThresholds c →
       thresholdFor cfg.categoryThresholds c ≤ (s2 : Int) →
       serviceIsSafe (buildResultFromText cfg ⟨pre ++ (c, s2) :: post, bl⟩) = false) := by
  have hiff : ∀ cfg resp, serviceIsSafe (buildResultFromText cfg resp) = false ↔
      ((∃ p ∈ resp.categoriesAnalysis,
          thresholdFor cfg.categoryThresholds p.1 ≠ -1 ∧
          (p.2 : Int) ≥ thresholdFor cfg.categoryThresholds p.1) ∨
       resp.blocklistsMatch ≠ []) := by
    intro cfg resp
    rw [buildResult_unsafe_iff]
    constructor
    · rintro (⟨p, hmem, htest⟩ | hbl)
      · exact Or.inl ⟨p, hmem, of_decide_eq_true htest⟩
      · exact Or.inr hbl
    · rintro (⟨p, hmem, hcond⟩ | hbl)
      · exact Or.inl ⟨p, hmem, decide_eq_true hcond⟩
      · exact Or.inr hbl
  refine ⟨hiff, rfl, fun e => rfl, ?_⟩
  intro cfg pre post c s s2 bl _hsafe hlt hge
  apply (hiff cfg ⟨pre ++ (c, s2) :: post, bl⟩).mpr
  left
  refine ⟨(c, s2), ?_, ?_, hge⟩
  · exact List.mem_append_right pre (List.mem_cons_self _ _)
  · intro heq
    rw [heq] at hlt
    have hnn : (0 : Int) ≤ (s : Int) := Int.natCast_nonneg s
    omega

/-- Witness for C1 amended: the monotonicity part at the default
thresholds, raising Violence from 2 to 6. -/
theorem isAllowed_amended_witness :
    serviceIsSafe (buildResultFromText cfgDefault ⟨[("Violence".toList, 2)], []⟩) = true ∧
    serviceIsSafe (buildResultFromText cfgDefault ⟨[("Violence".toList, 6)], []⟩) = false :=
  ⟨by decide,
   isAllowed_amended.2.2.2 cfgDefault [] [] "Violence".toList 2 6 []
     (by decide) (by decide) (by decide)⟩

/-- Splitting at the first `": "` of a string whose part before the
separator contains no colon recovers exactly the two parts (the Python
`split(": ", 1)` semantics). -/
theorem splitFirst_colon_space (pre post : Str) (h : ':' ∉ pre) :
    splitFirst (':' :: ' ' :: []) (pre ++ ':' :: ' ' :: post) = some (pre, post) := by
  induction pre with
  | nil => simp [splitFirst, dropSep]
  | cons c cs ih =>
    have hc : ':' ≠ c := fun hcc => h (by rw [hcc]; exact List.mem_cons_self c cs)
    have hcs : ':' ∉ cs := fun hm => h (List.mem_cons_of_mem c hm)
    simp only [List.cons_append, splitFirst, dropSep, if_neg hc]
    rw [List.append_eq, ih hcs]
    rfl

/-- C4: synthesis over exactly one successful result returns that
result's content verbatim, for every content string (including contents
containing the separator), without consulting the synthesis agent, for
any agent name free of colons. -/
theorem synthesis_single_result_verbatim (g : Option (Str → Option Str))
    (name content query : Str) (h : ':' ∉ name) :
    synthesizeResponses g [(name, content)] query = (content, false) := by
  have hpre : ':' ∉ ('*' :: '*' :: (name ++ ['*', '*'])) := by
    intro hm
    simp only [List.mem_cons, List.mem_append] at hm
    rcases hm with h1 | h1 | h1 | h1
    · exact absurd h1 (by decide)
    · exact absurd h1 (by decide)
    · exact h h1
    · simp at h1
  have hsplit := splitFirst_colon_space ('*' :: '*' :: (name ++ ['*', '*'])) content hpre
  unfold synthesizeResponses expertResponsesOf
  simp only [List.map_cons, List.map_nil]
  have hkey : splitFirst (':' :: ' ' :: [])
        ('*' :: '*' :: (name ++ '*' :: '*' :: ':' :: ' ' :: content))
      = some ('*' :: '*' :: (name ++ ['*', '*']), content) := by
    have hform : ('*' :: '*' :: (name ++ ['*', '*'])) ++ ':' :: ' ' :: content
        = '*' :: '*' :: (name ++ '*' :: '*' :: ':' :: ' ' :: content) := by simp
    rw [← hform]
    exact hsplit
  simp [hkey]

/-- Witness for C4: a content string that itself contains the separator
comes back unchanged, with no synthesis-agent consultation. -/
theorem synthesis_single_result_verbatim_witness :
    (':' ∉ "a".toList) ∧
    synthesizeResponses none [("a".toList, "hello: world".toList)] [] =
      ("hello: world".toList, false) :=
  ⟨by decide,
   synthesis_single_result_verbatim none "a".toList "hello: world".toList [] (by decide)⟩

/-- C5: with at least two successful responses, an unavailable synthesis
agent or a failing synthesis call makes `_synthesize_responses` return
the attribution-headed concatenation of all responses in result order;
the fallback is a total computation and the synthesis failure is not
propagated (the source catches it). -/
theorem synthesis_failure_falls_back (g : Option (Str → Option Str))
    (results : List (Str × Str)) (query : Str) (h2 : 2 ≤ results.length)
    (hfail : g = none ∨ ∃ run, g = some run ∧
      run (synthesisPrompt query (expertResponsesOf results)) = none) :
    synthesizeResponses g results query =
      (joinSep "\n\n".toList (expertResponsesOf results), true) := by
  have hlen : (expertResponsesOf results).length = results.length :=
    List.length_map results _
  have hne : ¬ expertResponsesOf results = [] := by
    intro hnil
    have hz : results.length = 0 := by rw [← hlen, hnil]; rfl
    omega
  have hne1 : ¬ (expertResponsesOf results).length = 1 := by
    rw [hlen]; omega
  unfold synthesizeResponses
  rcases hfail with hg | ⟨run, hg, hrun⟩
  · subst hg
    simp [hne, hne1]
  · subst hg
    simp [hne, hne1, hrun]

/-- Witness for C5: two successful responses and no synthesis agent. -/
theorem synthesis_failure_falls_back_witness :
    2 ≤ ([("a".toList, "X".toList), ("b".toList, "Y".toList)] : List (Str × Str)).length ∧
    synthesizeResponses none [("a".toList, "X".toList), ("b".toList, "Y".toList)] [] =
      (joinSep "\n\n".toList
        (expertResponsesOf [("a".toList, "X".toList), ("b".toList, "Y".toList)]), true) :=
  ⟨by decide,
   synthesis_failure_falls_back none
     [("a".toList, "X".toList), ("b".toList, "Y".toList)] [] (by decide) (Or.inl rfl)⟩

/-- Shape of every possible retry-loop run: at most 3 attempts, and the
sleeps performed are exactly the doubling sequence 10, 20 truncated to
the retries that happened. -/
theorem retryRun_bounds (behavior : Nat → WorkflowAttempt) :
    (runWorkflowWithRetry behavior).attemptsUsed ≤ 3 ∧
    (runWorkflowWithRetry behavior).sleeps =
      (List.range ((runWorkflowWithRetry behavior).attemptsUsed - 1)).map
        (fun i => 10 * 2 ^ i) := by
  unfold runWorkflowWithRetry
  rcases hb0 : behavior 0 with rs0 | m0 | m0
  · simp [retryGo, hb0]
  · rcases hb1 : behavior 1 with rs1 | m1 | m1
    · simp only [retryGo, hb0, hb1]
      split <;> simp [List.range_succ]
    · rcases hb2 : behavior 2 with rs2 | m2 | m2 <;>
        · simp only [retryGo, hb0, hb1, hb2]
          split
          · split <;> simp [List.range_succ]
          · simp [List.range_succ]
    · simp only [retryGo, hb0, hb1]
      split <;> simp [List.range_succ]
  · simp [retryGo, hb0]

/-- C7: the workflow invocation is attempted at most 3 times; a
rate-limit `ServiceResponseException` is the only retried error class:
it leads to the next attempt actually being consulted, after sleeping
10 seconds before the second attempt and 20 before the third (the
doubling backoff sequence), a second rate-limit retries once more, and
on the third attempt the loop is exhausted and the error is re-raised;
a non-rate-limit service error or any other exception — on the first
attempt or after a retry — is re-raised immediately with no further
attempt and no further sleep. -/
theorem rateLimit_retry_policy (behavior : Nat → WorkflowAttempt) :
    (runWorkflowWithRetry behavior).attemptsUsed ≤ 3 ∧
    (∀ m, behavior 0 = WorkflowAttempt.serviceError m →
       containsSub "rate limit".toList (pyLower m) = false →
       runWorkflowWithRetry behavior = ⟨some m, [], 1, []⟩) ∧
    (∀ m, behavior 0 = WorkflowAttempt.otherError m →
       runWorkflowWithRetry behavior = ⟨some m, [], 1, []⟩) ∧
    (runWorkflowWithRetry behavior).sleeps =
      (List.range ((runWorkflowWithRetry behavior).attemptsUsed - 1)).map
        (fun i => 10 * 2 ^ i) ∧
    (∀ m rs, behavior 0 = WorkflowAttempt.serviceError m →
       containsSub "rate limit".toList (pyLower m) = true →
       behavior 1 = WorkflowAttempt.ok rs →
       runWorkflowWithRetry behavior = ⟨none, rs, 2, [10]⟩) ∧
    (∀ m0 m1, behavior 0 = WorkflowAttempt.serviceError m0 →
       containsSub "rate limit".toList (pyLower m0) = true →
       behavior 1 = WorkflowAttempt.serviceError m1 →
       containsSub "rate limit".toList (pyLower m1) = false →
       runWorkflowWithRetry behavior = ⟨some m1, [], 2, [10]⟩) ∧
    (∀ m0 m1, behavior 0 = WorkflowAttempt.serviceError m0 →
       containsSub "rate limit".toList (pyLower m0) = true →
       behavior 1 = WorkflowAttempt.otherError m1 →
       runWorkflowWithRetry behavior = ⟨some m1, [], 2, [10]⟩) ∧
    (∀ m0 m1 rs, behavior 0 = WorkflowAttempt.serviceError m0 →
       containsSub "rate limit".toList (pyLower m0) = true →
       behavior 1 = WorkflowAttempt.serviceError m1 →
       containsSub "rate limit".toList (pyLower m1) = true →
       behavior 2 = WorkflowAttempt.ok rs →
       runWorkflowWithRetry behavior = ⟨none, rs, 3, [10, 20]⟩) ∧
    (∀ m0 m1 m2, behavior 0 = WorkflowAttempt.serviceError m0 →
       containsSub "rate limit".toList (pyLower m0) = true →
       behavior 1 = WorkflowAttempt.serviceError m1 →
       containsSub "rate limit".toList (pyLower m1) = true →
       behavior 2 = WorkflowAttempt.serviceError m2 →
       runWorkflowWithRetry behavior = ⟨some m2, [], 3, [10, 20]⟩) := by
  refine ⟨(retryRun_bounds behavior).1, ?_, ?_, (retryRun_bounds behavior).2,
    ?_, ?_, ?_, ?_, ?_⟩
  · intro m h0 hrl
    simp only [runWorkflowWithRetry, retryGo, h0]
    rw [hrl]
    simp
  · intro m h0
    simp [runWorkflowWithRetry, retryGo, h0]
  · intro m rs h0 hrl h1
    simp only [runWorkflowWithRetry, retryGo, h0]
    rw [hrl]
    simp [retryGo, h1]
  · intro m0 m1 h0 hrl0 h1 hrl1
    simp only [runWorkflowWithRetry, retryGo, h0]
    rw [hrl0]
    simp only [retryGo, h1]
    rw [hrl1]
    simp
  · intro m0 m1 h0 hrl0 h1
    simp only [runWorkflowWithRetry, retryGo, h0]
    rw [hrl0]
    simp [retryGo, h1]
  · intro m0 m1 rs h0 hrl0 h1 hrl1 h2
    simp only [runWorkflowWithRetry, retryGo, h0]
    rw [hrl0]
    simp only [retryGo, h1]
    rw [hrl1]
    simp [retryGo, h2]
  · intro m0 m1 m2 h0 hrl0 h1 hrl1 h2
    simp only [runWorkflowWithRetry, retryGo, h0]
    rw [hrl0]
    simp only [retryGo, h1]
    rw [hrl1]
    simp [retryGo, h2]

/-- Witness for C7: a non-rate-limit service error on the first attempt
is surfaced immediately after one attempt and no sleep, while a
rate-limit error on the first attempt leads to a second attempt, whose
result is returned, after a single 10-second sleep. -/
theorem rateLimit_retry_policy_witness :
    behaviorQuota 0 = WorkflowAttempt.serviceError "server busy".toList ∧
    containsSub "rate limit".toList (pyLower "server busy".toList) = false ∧
    runWorkflowWithRetry behaviorQuota = ⟨some "server busy".toList, [], 1, []⟩ ∧
    containsSub "rate limit".toList (pyLower "429 Rate limit exceeded".toList) = true ∧
    runWorkflowWithRetry behaviorRateLimited =
      ⟨none, [("generic_agent".toList, "ok".toList)], 2, [10]⟩ :=
  ⟨rfl, by decide,
   (rateLimit_retry_policy behaviorQuota).2.1 "server busy".toList rfl (by decide),
   by decide,
   (rateLimit_retry_policy behaviorRateLimited).2.2.2.2.1
     "429 Rate limit exceeded".toList [("generic_agent".toList, "ok".toList)]
     rfl (by decide) rfl⟩

/-- C2: when the input safety check disallows the user message,
`execute_workflow` returns the blocked response immediately — empty
message list, empty participating agents, the policy-violation metadata —
with zero agent dispatches and without running any of the remainder of
the pipeline (the result is independent of it); and the safety check
error message carries the flagged categories. -/
theorem inputGate_blocks_before_dispatch (cfg : SafetyConfig)
    (client : Option (Str → ClassifierOutcome)) (req : OrchRequest)
    (freshSessionId : Str) (rest : Unit → GroupChatResponse × Nat)
    (h : (checkUserInputAsync cfg client req.message).1.1 = false) :
    executeWorkflowGate cfg client req freshSessionId rest =
      ({ messages := []
         sessionId := req.sessionId.getD freshSessionId
         totalTurns := 0
         participatingAgents := []
         terminatedAgents := []
         metadata := blockedMetadata }, 0) ∧
    (∀ rest2, executeWorkflowGate cfg client req freshSessionId rest =
       executeWorkflowGate cfg client req freshSessionId rest2) ∧
    (checkUserInputAsync cfg client req.message).1.2 =
      some (inputBlockedMessage
        (analyzeTextAsync cfg client req.message).1.flaggedCategories) := by
  refine ⟨?_, ?_, ?_⟩
  · simp [executeWorkflowGate, h]
  · intro rest2
    simp [executeWorkflowGate, h]
  · unfold checkUserInputAsync at h ⊢
    by_cases hb : (!cfg.enabled || !cfg.blockUnsafeInput) = true
    · rw [if_pos hb] at h
      simp at h
    · rw [if_neg hb] at h ⊢
      by_cases hs :
          (!(serviceIsSafe (analyzeTextAsync cfg client req.message).1)) = true
      · simp [hs]
      · rw [if_neg hs] at h
        simp at h

/-- Witness for C2 with the default configuration and a classifier
reporting Violence severity 6. -/
theorem inputGate_blocks_before_dispatch_witness :
    (checkUserInputAsync cfgDefault clientViolence reqAlphaBeta.message).1.1 = false ∧
    executeWorkflowGate cfgDefault clientViolence reqAlphaBeta "sid".toList
        (fun _ => (⟨[⟨"x".toList, "a".toList, 1⟩], "sid".toList, 1,
                    ["a".toList], [], []⟩, 7)) =
      ({ messages := []
         sessionId := "sid".toList
         totalTurns := 0
         participatingAgents := []
         terminatedAgents := []
         metadata := blockedMetadata }, 0) :=
  ⟨by decide,
   (inputGate_blocks_before_dispatch cfgDefault clientViolence reqAlphaBeta
     "sid".toList
     (fun _ => (⟨[⟨"x".toList, "a".toList, 1⟩], "sid".toList, 1,
                 ["a".toList], [], []⟩, 7)) (by decide)).1⟩

/-- The terminated set only grows across one group-chat turn. -/
theorem processTurn_term_mono (b : Nat → Str → AgentOutcome) (turn : Nat) :
    ∀ (agents terminated : List Str), ∀ x ∈ terminated,
      x ∈ (processTurnAgents b turn agents terminated).2 := by
  intro agents
  induction agents with
  | nil =>
    intro terminated x hx
    simpa [processTurnAgents] using hx
  | cons name rest ih =>
    intro terminated x hx
    simp only [processTurnAgents]
    by_cases hmem : name ∈ terminated
    · rw [if_pos hmem]
      exact ih terminated x hx
    · rw [if_neg hmem]
      cases hb : b turn name with
      | notFound => exact ih terminated x hx
      | success content =>
        by_cases ht : isAgentTerminated content = true
        · simp only [ht, if_true]
          exact ih (terminated ++ [name]) x (List.mem_append_left _ hx)
        · simp only [ht, if_false, Bool.false_eq_true]
          exact ih terminated x hx
      | timeout => exact ih (terminated ++ [name]) x (List.mem_append_left _ hx)
      | failure msg => exact ih (terminated ++ [name]) x (List.mem_append_left _ hx)

/-- One group-chat turn over distinct, resolvable agents none of which
is already terminated records exactly one entry per agent, in request
order, and marks every timed-out or errored agent terminated. -/
theorem processTurn_entries (b : Nat → Str → AgentOutcome) (turn : Nat) :
    ∀ (agents terminated : List Str), agents.Nodup →
    (∀ a ∈ agents, b turn a ≠ AgentOutcome.notFound) →
    (∀ a ∈ agents, a ∉ terminated) →
    (processTurnAgents b turn agents terminated).1 =
      agents.map (entryForTurn b turn) ∧
    (∀ a ∈ agents, outcomeFailed (b turn a) →
      a ∈ (processTurnAgents b turn agents terminated).2) := by
  intro agents
  induction agents with
  | nil =>
    intro terminated _ _ _
    refine ⟨by simp [processTurnAgents], ?_⟩
    intro a ha
    exact absurd ha (List.not_mem_nil a)
  | cons name rest ih =>
    intro terminated hnodup hres hdisj
    have hname_nmem : name ∉ terminated := hdisj name (List.mem_cons_self name rest)
    have hrest_nodup : rest.Nodup := (List.nodup_cons.mp hnodup).2
    have hname_nin_rest : name ∉ rest := (List.nodup_cons.mp hnodup).1
    have hres_rest : ∀ a ∈ rest, b turn a ≠ AgentOutcome.notFound :=
      fun a ha => hres a (List.mem_cons_of_mem name ha)
    simp only [processTurnAgents, if_neg hname_nmem]
    cases hb : b turn name with
    | notFound => exact absurd hb (hres name (List.mem_cons_self name rest))
    | success content =>
      by_cases ht : isAgentTerminated content = true
      · have hdisj1 : ∀ a ∈ rest, a ∉ terminated ++ [name] := by
          intro a ha hmem1
          rcases List.mem_append.mp hmem1 with h1 | h1
          · exact hdisj a (List.mem_cons_of_mem name ha) h1
          · rw [List.mem_singleton] at h1
            rw [h1] at ha
            exact hname_nin_rest ha
        obtain ⟨ih1, ih2⟩ := ih (terminated ++ [name]) hrest_nodup hres_rest hdisj1
        simp only [ht, if_true]
        refine ⟨by simp [ih1, entryForTurn, hb], ?_⟩
        intro a ha hfail
        rcases List.mem_cons.mp ha with h1 | h1
        · rw [h1, hb] at hfail
          exact absurd hfail (by simp [outcomeFailed])
        · exact ih2 a h1 hfail
      · have hdisj1 : ∀ a ∈ rest, a ∉ terminated :=
          fun a ha => hdisj a (List.mem_cons_of_mem name ha)
        obtain ⟨ih1, ih2⟩ := ih terminated hrest_nodup hres_rest hdisj1
        simp only [ht, if_false, Bool.false_eq_true]
        refine ⟨by simp [ih1, entryForTurn, hb], ?_⟩
        intro a ha hfail
        rcases List.mem_cons.mp ha with h1 | h1
        · rw [h1, hb] at hfail
          exact absurd hfail (by simp [outcomeFailed])
        · exact ih2 a h1 hfail
    | timeout =>
      have hdisj1 : ∀ a ∈ rest, a ∉ terminated ++ [name] := by
        intro a ha hmem1
        rcases List.mem_append.mp hmem1 with h1 | h1
        · exact hdisj a (List.mem_cons_of_mem name ha) h1
        · rw [List.mem_singleton] at h1
          rw [h1] at ha
          exact hname_nin_rest ha
      obtain ⟨ih1, ih2⟩ := ih (terminated ++ [name]) hrest_nodup hres_rest hdisj1
      refine ⟨by simp [ih1, entryForTurn, hb], ?_⟩
      intro a ha _hfail
      rcases List.mem_cons.mp ha with h1 | h1
      · rw [h1]
        exact processTurn_term_mono b turn rest (terminated ++ [name]) name
          (List.mem_append_right _ (List.mem_singleton_self name))
      · exact ih2 a h1 _hfail
    | failure msg =>
      have hdisj1 : ∀ a ∈ rest, a ∉ terminated ++ [name] := by
        intro a ha hmem1
        rcases List.mem_append.mp hmem1 with h1 | h1
        · exact hdisj a (List.mem_cons_of_mem name ha) h1
        · rw [List.mem_singleton] at h1
          rw [h1] at ha
          exact hname_nin_rest ha
      obtain ⟨ih1, ih2⟩ := ih (terminated ++ [name]) hrest_nodup hres_rest hdisj1
      refine ⟨by simp [ih1, entryForTurn, hb], ?_⟩
      intro a ha _hfail
      rcases List.mem_cons.mp ha with h1 | h1
      · rw [h1]
        exact processTurn_term_mono b turn rest (terminated ++ [name]) name
          (List.mem_append_right _ (List.mem_singleton_self name))
      · exact ih2 a h1 _hfail

/-- C3 counterexample: with `alpha` succeeding and `beta` timing out in a
single-turn run, the response still records one entry per requested
agent (three messages: user, alpha, beta), but `participating_agents` is
the full requested list, not the successful subset `[alpha]` the claim
requires. -/
theorem dispatcher_participating_counterexample :
    (startGroupChat behaviorAlphaBeta reqAlphaBeta "s".toList).participatingAgents ≠
      ["alpha".toList] ∧
    (startGroupChat behaviorAlphaBeta reqAlphaBeta "s".toList).participatingAgents =
      ["alpha".toList, "beta".toList] ∧
    (startGroupChat behaviorAlphaBeta reqAlphaBeta "s".toList).messages.length = 3 ∧
    (startGroupChat behaviorAlphaBeta reqAlphaBeta "s".toList).terminatedAgents =
      ["beta".toList] := by
  refine ⟨by decide, rfl, rfl, rfl⟩

/-- C3 amended: for a single-turn run over distinct resolvable agents of
which some fail or time out, the run completes without raising, the
returned messages contain exactly one entry per requested agent in
request order (success, timeout, or error), every failed agent is listed
in `terminated_agents` — but `participating_agents` equals the full
requested list rather than the successful subset. -/
theorem dispatcher_one_entry_per_agent (b : Nat → Str → AgentOutcome)
    (req : OrchRequest) (sessionId : Str) (hturns : req.maxTurns = 1)
    (hnodup : req.agents.Nodup)
    (hres : ∀ a ∈ req.agents, b 1 a ≠ AgentOutcome.notFound) :
    (startGroupChat b req sessionId).messages =
      (⟨req.message, "user".toList, 0⟩ : GroupChatMessage) ::
        req.agents.map (entryForTurn b 1) ∧
    (startGroupChat b req sessionId).participatingAgents = req.agents ∧
    (∀ a ∈ req.agents, outcomeFailed (b 1 a) →
       a ∈ (startGroupChat b req sessionId).terminatedAgents) := by
  obtain ⟨h1, h2⟩ := processTurn_entries b 1 req.agents [] hnodup hres
    (fun a _ ha => absurd ha (List.not_mem_nil a))
  unfold startGroupChat
  rw [hturns]
  simp only [groupChatLoop]
  split
  · exact ⟨by simp [h1], trivial, fun a ha hf => h2 a ha hf⟩
  · simp only [groupChatLoop]
    exact ⟨by simp [h1], trivial, fun a ha hf => h2 a ha hf⟩

/-- Witness for C3 amended on the alpha/beta run. -/
theorem dispatcher_one_entry_per_agent_witness :
    reqAlphaBeta.agents.Nodup ∧
    (startGroupChat behaviorAlphaBeta reqAlphaBeta "s2".toList).messages =
      (⟨reqAlphaBeta.message, "user".toList, 0⟩ : GroupChatMessage) ::
        reqAlphaBeta.agents.map (entryForTurn behaviorAlphaBeta 1) :=
  ⟨by decide,
   (dispatcher_one_entry_per_agent behaviorAlphaBeta reqAlphaBeta "s2".toList rfl
     (by decide) (by decide)).1⟩

/-- Looking up a key just written by `setAssoc` yields the new value. -/
theorem lookup_setAssoc_self {β : Type} (k : Str) (v : β) (l : List (Str × β)) :
    List.lookup k (setAssoc k v l) = some v := by
  induction l with
  | nil => simp [setAssoc, List.lookup]
  | cons p rest ih =>
    obtain ⟨k0, v0⟩ := p
    by_cases hk : k0 = k
    · rw [setAssoc, if_pos hk, hk]
      simp [List.lookup]
    · rw [setAssoc, if_neg hk]
      have hne : (k == k0) = false := by
        simp only [beq_eq_false_iff_ne, ne_eq]
        exact fun hkk => hk hkk.symm
      simp [List.lookup, hne, ih]

/-- `_update_session_access` touches only metadata. -/
theorem updateSessionAccess_memory (st : SessionState) (sid : Str) (now : Nat) :
    (updateSessionAccess st sid now).memory = st.memory := by
  unfold updateSessionAccess
  split <;> rfl

/-- `_update_session_access` does not change the storage type. -/
theorem updateSessionAccess_storageTypeFile (st : SessionState) (sid : Str)
    (now : Nat) : (updateSessionAccess st sid now).storageTypeFile = st.storageTypeFile := by
  unfold updateSessionAccess
  split <;> rfl

/-- The turn indices written for the collected agent responses count up
from the starting turn. -/
theorem agentTurnMessages_turns (rs : List (Str × Str)) :
    ∀ t, (agentTurnMessages rs t).map GroupChatMessage.turn =
      List.range' t rs.length := by
  induction rs with
  | nil =>
    intro t
    simp [agentTurnMessages]
  | cons p rest ih =>
    intro t
    obtain ⟨a, c⟩ := p
    rw [List.length_cons, List.range'_succ t rest.length 1]
    simp [agentTurnMessages, ih (t + 1)]

/-- `_save_session_to_file` touches only the file stores. -/
theorem saveSessionToFile_memory (st : SessionState) (sid : Str) :
    (saveSessionToFile st sid).memory = st.memory := rfl

/-- C6 counterexample: the store appends caller-built messages verbatim.
Two consecutive orchestration runs on one session each append their user
message with turn 0, so the read-back turn sequence is [0, 1, 0] — not
strictly increasing — and appending messages that differ only in their
caller-supplied turn field yields histories with exactly those turn
values, so the index is supplied by the caller, not assigned by the
store. -/
theorem sessionStore_turnIndex_counterexample :
    ((getSessionHistory
        (addMessageToSession
          (addMessageToSession
            (addMessageToSession (⟨false, [], [], [], []⟩ : SessionState)
              "s".toList ⟨"hi".toList, "user".toList, 0⟩ 0)
            "s".toList ⟨"ok".toList, "agent1".toList, 1⟩ 1)
          "s".toList ⟨"again".toList, "user".toList, 0⟩ 2)
        "s".toList 3).1.map GroupChatMessage.turn = [0, 1, 0]) ∧
    ¬ ((getSessionHistory
        (addMessageToSession
          (addMessageToSession
            (addMessageToSession (⟨false, [], [], [], []⟩ : SessionState)
              "s".toList ⟨"hi".toList, "user".toList, 0⟩ 0)
            "s".toList ⟨"ok".toList, "agent1".toList, 1⟩ 1)
          "s".toList ⟨"again".toList, "user".toList, 0⟩ 2)
        "s".toList 3).1.map GroupChatMessage.turn).Pairwise (· < ·) ∧
    ((getSessionHistory
        (addMessageToSession (⟨false, [], [], [], []⟩ : SessionState)
          "s".toList ⟨"x".toList, "a".toList, 7⟩ 0)
        "s".toList 1).1.map GroupChatMessage.turn = [7]) ∧
    ((getSessionHistory
        (addMessageToSession (⟨false, [], [], [], []⟩ : SessionState)
          "s".toList ⟨"x".toList, "a".toList, 3⟩ 0)
        "s".toList 1).1.map GroupChatMessage.turn = [3]) := by
  refine ⟨by decide, by decide, by decide, by decide⟩

/-- C6 amended: repeated reads of a session history return the same
sequence (idempotent read); appending stores the caller-built message
verbatim at the end of the history — the turn index is the one the
caller supplied, not assigned by the store; and the messages assembled
by one orchestration run (`execute_workflow`) carry strictly increasing
turn indices 0, 1, 2, …. -/
theorem sessionStore_turn_order_amended :
    (∀ (st : SessionState) (sid : Str) (now now2 : Nat),
       (getSessionHistory (getSessionHistory st sid now).2 sid now2).1 =
         (getSessionHistory st sid now).1) ∧
    (∀ (st : SessionState) (sid : Str) (message : GroupChatMessage) (now : Nat),
       List.lookup sid (addMessageToSession st sid message now).memory =
         some (((List.lookup sid st.memory).getD []) ++ [message])) ∧
    (∀ (u s : Str) (rs : List (Str × Str)),
       ((runMessages u rs s).map GroupChatMessage.turn).Pairwise (· < ·)) := by
  refine ⟨?_, ?_, ?_⟩
  · intro st sid now now2
    rcases hmem : List.lookup sid st.memory with _ | h
    · by_cases hsf : st.storageTypeFile = true
      · rcases hload : loadSessionFromFile st sid with _ | hs
        · simp [getSessionHistory, hmem, hsf, hload]
        · obtain ⟨history, st1⟩ := hs
          simp [getSessionHistory, hmem, hsf, hload, updateSessionAccess_memory,
            lookup_setAssoc_self]
      · simp [getSessionHistory, hmem, hsf]
    · simp [getSessionHistory, hmem, updateSessionAccess_memory]
  · intro st sid message now
    by_cases hmem : (List.lookup sid st.memory).isNone = true
    · have hnone : List.lookup sid st.memory = none :=
        Option.isNone_iff_eq_none.mp hmem
      simp [addMessageToSession, hmem, hnone, updateSessionAccess_memory,
        saveSessionToFile_memory, lookup_setAssoc_self, apply_ite SessionState.memory]
    · simp [addMessageToSession, hmem, updateSessionAccess_memory,
        saveSessionToFile_memory, lookup_setAssoc_self, apply_ite SessionState.memory]
  · intro u s rs
    unfold runMessages
    by_cases hlen : rs.length > 1
    · rw [if_pos hlen]
      simp only [List.map_append, List.map_cons, List.map_nil, agentTurnMessages_turns]
      apply List.pairwise_append.mpr
      refine ⟨?_, List.pairwise_singleton _ _, ?_⟩
      · apply List.pairwise_cons.mpr
        refine ⟨?_, List.pairwise_lt_range' 1 rs.length⟩
        intro b hb
        have := (List.mem_range'_1.mp hb).1
        omega
      · intro a ha b hb
        rw [List.mem_singleton] at hb
        rcases List.mem_cons.mp ha with h1 | h1
        · omega
        · have := (List.mem_range'_1.mp h1).2
          omega
    · rw [if_neg hlen]
      simp only [List.map_cons, agentTurnMessages_turns]
      apply List.pairwise_cons.mpr
      refine ⟨?_, List.pairwise_lt_range' 1 rs.length⟩
      intro b hb
      have := (List.mem_range'_1.mp hb).1
      omega
